import Mathlib

/-!
Verification development for the partbuilder-spike repository.

The definitions below are shallow embeddings of the Python sources under
`src/partbuilder/`.  Pure fragments become Lean functions; raising an
exception becomes an `Except` result.  Python name resolution against the
module namespaces of `partbuilder/errors.py` and `partbuilder/common.py`
is embedded explicitly, because several call sites reference names that
those modules do not define (the spike renamed the error classes from
`Snapcraft*` to `Partbuilder*` without updating the call sites).
-/

namespace Partbuilder

/-- Embedded Python exception values.  `attributeError m` models
`AttributeError` raised when an attribute named `m` is looked up on the
`partbuilder.errors` module and is absent; `nameError m` models
`NameError` for an undefined global `m`; `typeError m` models
`TypeError`; `partbuilderError c m` models raising a class `c` defined in
`partbuilder/errors.py` with message `m`; `commandError c n` models the
intended record carrying command and exit code. -/
inductive PyErr where
  | attributeError (missing : String)
  | nameError (missing : String)
  | typeError (msg : String)
  | partbuilderError (cls : String) (msg : String)
  | commandError (command : String) (exit_code : Int)
deriving DecidableEq

/-- The class names defined at top level in `src/partbuilder/errors.py`
(lines 35-331).  No `Snapcraft*` class and no `CorruptedElfFileError` or
`StepOutdatedError` is among them. -/
def errorsModuleClasses : List String :=
  ["PartbuilderError", "PartbuilderException", "OsReleaseIdError",
   "XAttributeError", "XAttributeTooLongError", "MetadataExtractionError",
   "MissingMetadataFileError", "UnhandledMetadataFileTypeError",
   "InvalidExtractorValueError", "YamlValidationError", "PluginError",
   "PluginBaseError", "PartbuilderCommandError",
   "PartbuilderPluginCommandError", "PartbuilderPluginBuildError",
   "PartbuilderEnvironmentError", "StepHasNotRunError",
   "NoLatestStepError", "ScriptletBaseError", "ScriptletRunError",
   "MissingStateCleanError"]

/-- Evaluating `raise errors.C(msg)`: if class `C` exists in
`partbuilder/errors.py` the intended error is raised; otherwise Python
raises `AttributeError` for the missing module attribute `C`. -/
def pyRaise (cls : String) (msg : String) : PyErr :=
  if cls ∈ errorsModuleClasses then PyErr.partbuilderError cls msg
  else PyErr.attributeError cls

/-- A part as seen by `_sort_parts` / `_compute_dependencies` in
`src/partbuilder/_partbuilder.py`: a unique name plus the resolved
`after` dependencies (`part.deps`), identified here by name since part
names are unique (parts come from a dict keyed by name). -/
structure Part where
  name : String
  deps : List String
deriving DecidableEq

/-- Ordering used by `sorted(self.all_parts, key=lambda part: part.name,
reverse=True)` at `_partbuilder.py:272`: descending by name.  Python
compares strings lexicographically by code point, embedded here as the
lexicographic order on the character list of the name. -/
def partGE (a b : Part) : Prop := b.name.data ≤ a.name.data

instance : DecidableRel partGE := fun a b =>
  inferInstanceAs (Decidable (b.name.data ≤ a.name.data))

instance : IsTotal Part partGE := ⟨fun a b => le_total b.name.data a.name.data⟩

instance : IsTrans Part partGE := ⟨fun _ _ _ hab hbc => le_trans hbc hab⟩

/-- The stable descending-name sort performed before top-selection
(`_partbuilder.py:272-274`). -/
def sortDesc (l : List Part) : List Part := l.insertionSort partGE

/-- One part mentions another if the latter appears in its `deps`; a part
is `mentioned` if any part in the pool (itself included: the inner loop
at `_partbuilder.py:280` runs over all of `all_parts`) lists it as a
dependency. -/
def mentioned (p : Part) (pool : List Part) : Bool :=
  pool.any (fun other => other.deps.contains p.name)

/-- The scan at `_partbuilder.py:278-285`: the first part of the pool not
mentioned in any pool part's `deps` ("top"). -/
def findTop (pool : List Part) : Option Part :=
  pool.find? (fun p => !mentioned p pool)

/-- Message of the exception raised at `_partbuilder.py:288-290`. -/
def circularMsg : String := "circular dependency chain found in parts definition"

/-- The `while self.all_parts:` loop of `_sort_parts`
(`_partbuilder.py:276-292`): repeatedly select the top part, prepend it
to the output, remove it from the pool; when no top exists the code
evaluates `errors.SnapcraftLogicError`, a name `partbuilder/errors.py`
does not define. -/
def sortPartsLoop (pool acc : List Part) : Except PyErr (List Part) :=
  if pool = [] then Except.ok acc
  else
    match hfind : findTop pool with
    | none => Except.error (pyRaise "SnapcraftLogicError" circularMsg)
    | some top => sortPartsLoop (pool.erase top) (top :: acc)
termination_by pool.length
decreasing_by
  have hm : top ∈ pool := List.mem_of_find?_eq_some hfind
  have h1 : (pool.erase top).length = pool.length - 1 :=
    List.length_erase_of_mem hm
  have h2 : 0 < pool.length := List.length_pos.mpr (List.ne_nil_of_mem hm)
  omega

/-- `LifecycleManager._sort_parts` (`_partbuilder.py:266-294`). -/
def sortParts (parts : List Part) : Except PyErr (List Part) :=
  sortPartsLoop (sortDesc parts) []

/-- Concrete part depending on `"b"`. -/
def partA : Part := { name := "a", deps := ["b"] }

/-- Concrete part with no dependencies. -/
def partB : Part := { name := "b", deps := [] }

/-- Concrete part depending on itself (`a after: [a]`). -/
def partSelf : Part := { name := "a", deps := ["a"] }

lemma sortPartsLoop_nil (acc : List Part) : sortPartsLoop [] acc = Except.ok acc := by
  rw [sortPartsLoop]
  simp

lemma sortPartsLoop_cons (pool acc : List Part) (h : pool ≠ []) :
    sortPartsLoop pool acc =
      match findTop pool with
      | none => Except.error (pyRaise "SnapcraftLogicError" circularMsg)
      | some top => sortPartsLoop (pool.erase top) (top :: acc) := by
  rw [sortPartsLoop]
  simp only [if_neg h]
  cases hf : findTop pool <;> simp [hf]

lemma sortPartsLoop_top (pool acc : List Part) (top : Part) (h : pool ≠ [])
    (hf : findTop pool = some top) :
    sortPartsLoop pool acc = sortPartsLoop (pool.erase top) (top :: acc) := by
  rw [sortPartsLoop_cons pool acc h, hf]

lemma sortPartsLoop_err (pool acc : List Part) (h : pool ≠ [])
    (hf : findTop pool = none) :
    sortPartsLoop pool acc = Except.error (pyRaise "SnapcraftLogicError" circularMsg) := by
  rw [sortPartsLoop_cons pool acc h, hf]

/-- Evaluation of the sort on the two-part example: the dependency
`partB` comes first, its dependent `partA` second. -/
lemma sortParts_ab : sortParts [partA, partB] = Except.ok [partB, partA] := by
  have h1 : sortDesc [partA, partB] = [partB, partA] := by decide
  have h2 : findTop [partB, partA] = some partA := by decide
  have h3 : findTop [partB] = some partB := by decide
  have e1 : sortParts [partA, partB] = sortPartsLoop [partB, partA] [] := by
    rw [sortParts, h1]
  rw [e1, sortPartsLoop_top _ _ _ (by decide) h2]
  have h4 : ([partB, partA] : List Part).erase partA = [partB] := by decide
  rw [h4, sortPartsLoop_top _ _ _ (by decide) h3]
  have h5 : ([partB] : List Part).erase partB = [] := by decide
  rw [h5, sortPartsLoop_nil]

/-- Dependencies-first ordering of a part list: whenever the part at
position `j` lists the name of the part at position `i` among its
dependencies, position `i` comes strictly earlier. -/
def depsBefore (l : List Part) : Prop :=
  ∀ i j : Fin l.length, (l.get i).name ∈ (l.get j).deps → (i : Nat) < (j : Nat)

lemma findTop_not_mentioned {pool : List Part} {top : Part}
    (hf : findTop pool = some top) : ∀ b ∈ pool, top.name ∉ b.deps := by
  have hf' : pool.find? (fun p => !mentioned p pool) = some top := hf
  have hp : (!mentioned top pool) = true := by
    simpa using List.find?_some hf'
  have hm : mentioned top pool = false := by simpa using hp
  intro b hb hmem
  have hcon : mentioned top pool = true := by
    unfold mentioned
    rw [List.any_eq_true]
    refine ⟨b, hb, ?_⟩
    simpa [List.contains, List.elem_iff] using hmem
  rw [hcon] at hm
  exact Bool.noConfusion hm

lemma depsBefore_cons (top : Part) (acc : List Part)
    (hself : top.name ∉ top.deps)
    (hacc : ∀ a ∈ acc, a.name ∉ top.deps)
    (hG : depsBefore acc) : depsBefore (top :: acc) := by
  rintro ⟨i, hi⟩ ⟨j, hj⟩ hmem
  cases i with
  | zero =>
    cases j with
    | zero => exact absurd hmem hself
    | succ j => exact Nat.succ_pos j
  | succ i =>
    cases j with
    | zero =>
      exfalso
      have hi' : i < acc.length := by simpa using hi
      have hget : (top :: acc).get ⟨i + 1, hi⟩ = acc.get ⟨i, hi'⟩ := rfl
      rw [hget] at hmem
      exact hacc _ (acc.get_mem _ _) hmem
    | succ j =>
      have hi' : i < acc.length := by simpa using hi
      have hj' : j < acc.length := by simpa using hj
      have := hG ⟨i, hi'⟩ ⟨j, hj'⟩ hmem
      simpa using Nat.succ_lt_succ this

lemma sortPartsLoop_ordering :
    ∀ (n : Nat) (pool acc l : List Part), pool.length ≤ n →
      sortPartsLoop pool acc = Except.ok l →
      depsBefore acc →
      (∀ a ∈ acc, ∀ b ∈ pool, a.name ∉ b.deps) →
      depsBefore l := by
  intro n
  induction n with
  | zero =>
    intro pool acc l hlen hok hG _
    have hnil : pool = [] := List.eq_nil_of_length_eq_zero (Nat.le_zero.mp hlen)
    subst hnil
    rw [sortPartsLoop_nil] at hok
    cases hok
    exact hG
  | succ n ih =>
    intro pool acc l hlen hok hG hH
    by_cases hp : pool = []
    · subst hp
      rw [sortPartsLoop_nil] at hok
      cases hok
      exact hG
    · cases hf : findTop pool with
      | none =>
        rw [sortPartsLoop_err _ _ hp hf] at hok
        exact Except.noConfusion hok
      | some top =>
        rw [sortPartsLoop_top _ _ _ hp hf] at hok
        have htop : top ∈ pool := List.mem_of_find?_eq_some hf
        have hnm : ∀ b ∈ pool, top.name ∉ b.deps := findTop_not_mentioned hf
        refine ih (pool.erase top) (top :: acc) l ?_ hok ?_ ?_
        · have h1 : (pool.erase top).length = pool.length - 1 :=
            List.length_erase_of_mem htop
          have h2 : 0 < pool.length := List.length_pos.mpr hp
          omega
        · exact depsBefore_cons top acc (hnm top htop)
            (fun a ha => hH a ha top htop) hG
        · intro a ha b hb
          have hbpool : b ∈ pool := List.mem_of_mem_erase hb
          rcases List.mem_cons.mp ha with rfl | ha'
          · exact hnm b hbpool
          · exact hH a ha' b hbpool

/-- The loop invariant instantiated at the entry point of `_sort_parts`. -/
lemma sortParts_ordering (parts l : List Part)
    (hok : sortParts parts = Except.ok l) : depsBefore l := by
  refine sortPartsLoop_ordering (sortDesc parts).length (sortDesc parts) [] l
    le_rfl hok ?_ ?_
  · rintro ⟨i, hi⟩
    exact absurd hi (by simp)
  · intro a ha
    exact absurd ha (List.not_mem_nil a)

lemma sorted_desc_eq :
    ∀ (l1 l2 : List Part), l1.Perm l2 → l1.Sorted partGE → l2.Sorted partGE →
      (l1.map Part.name).Nodup → l1 = l2 := by
  intro l1
  induction l1 with
  | nil =>
    intro l2 hperm _ _ _
    exact hperm.nil_eq
  | cons a t1 ih =>
    intro l2 hperm hs1 hs2 hn
    cases l2 with
    | nil => exact absurd hperm.symm.nil_eq (by simp)
    | cons b t2 =>
      by_cases hab : a = b
      · subst hab
        have hterm := hperm.cons_inv
        have hs1' := (List.sorted_cons.mp hs1).2
        have hs2' := (List.sorted_cons.mp hs2).2
        have hn' : (t1.map Part.name).Nodup := (List.nodup_cons.mp hn).2
        rw [ih t2 hterm hs1' hs2' hn']
      · exfalso
        have hbmem : b ∈ a :: t1 := hperm.mem_iff.mpr (List.mem_cons_self b t2)
        have hamem : a ∈ b :: t2 := hperm.mem_iff.mp (List.mem_cons_self a t1)
        have hbt1 : b ∈ t1 :=
          List.mem_of_ne_of_mem (fun h => hab h.symm) hbmem
        have hat2 : a ∈ t2 := List.mem_of_ne_of_mem hab hamem
        have h1 : b.name.data ≤ a.name.data := (List.sorted_cons.mp hs1).1 b hbt1
        have h2 : a.name.data ≤ b.name.data := (List.sorted_cons.mp hs2).1 a hat2
        have hdata : a.name.data = b.name.data := le_antisymm h2 h1
        have hname : a.name = b.name := String.ext hdata
        have hnotin : a.name ∉ t1.map Part.name := (List.nodup_cons.mp hn).1
        exact hnotin (hname ▸ List.mem_map_of_mem Part.name hbt1)

/-- Two permuted part lists with unique names sort identically. -/
lemma sortParts_det (l1 l2 : List Part) (hperm : l1.Perm l2)
    (hn : (l1.map Part.name).Nodup) : sortParts l1 = sortParts l2 := by
  have hchain : (sortDesc l1).Perm (sortDesc l2) :=
    ((List.perm_insertionSort partGE l1).trans hperm).trans
      (List.perm_insertionSort partGE l2).symm
  have hn1 : ((sortDesc l1).map Part.name).Nodup := by
    have : ((sortDesc l1).map Part.name).Perm (l1.map Part.name) :=
      (List.perm_insertionSort partGE l1).map Part.name
    exact this.nodup_iff.mpr hn
  have heq : sortDesc l1 = sortDesc l2 :=
    sorted_desc_eq (sortDesc l1) (sortDesc l2) hchain
      (List.sorted_insertionSort partGE l1)
      (List.sorted_insertionSort partGE l2) hn1
  rw [sortParts, sortParts, heq]

/-- C1 counterexample: for the two-part input where part `a` declares
`after: [b]`, `_sort_parts` returns `[b, a]`, in which part `b` is
placed *before* its dependent `a` and part `a` *after* its dependency
`b`; the claimed ordering (each part after its dependents and before its
dependencies) fails at this input. -/
theorem claim_C1_counterexample :
    sortParts [partA, partB] = Except.ok [partB, partA] ∧
    ¬ (∀ i j : Fin ([partB, partA] : List Part).length,
        (([partB, partA] : List Part).get i).name ∈
          (([partB, partA] : List Part).get j).deps →
        (j : Nat) < (i : Nat)) := by
  refine ⟨sortParts_ab, fun h => ?_⟩
  have := h ⟨0, by decide⟩ ⟨1, by decide⟩ (by decide)
  simpa using this

/-- C1 (amended): the ordered part list produced by `_sort_parts` places
each part after all of its *dependencies* and before all of its
*dependents* (dependencies-first execution order), and the order is a
deterministic function of the parts mapping: any two arrangements of the
same parts (unique names) sort to the same list, ties being broken by
the descending-name sort performed before top-selection. -/
theorem claim_C1_ordering_deterministic :
    (∀ parts l : List Part, sortParts parts = Except.ok l → depsBefore l) ∧
    (∀ l1 l2 : List Part, l1.Perm l2 → (l1.map Part.name).Nodup →
      sortParts l1 = sortParts l2) :=
  ⟨sortParts_ordering, sortParts_det⟩

/-- C1 witness: the ordering statement and the determinism statement
instantiated on the concrete two-part input. -/
theorem claim_C1_witness :
    ((0 : Nat) < 1) ∧ sortParts [partB, partA] = sortParts [partA, partB] := by
  constructor
  · exact claim_C1_ordering_deterministic.1 [partA, partB] [partB, partA]
      sortParts_ab ⟨0, by decide⟩ ⟨1, by decide⟩ (by decide)
  · exact claim_C1_ordering_deterministic.2 [partB, partA] [partA, partB]
      (List.Perm.swap partA partB []) (by decide)

/-- C2: on the cyclic input `a after: [a]` the sort finds no top part
and aborts before any lifecycle step can run, but the exception raised is
`AttributeError` for the missing module attribute `SnapcraftLogicError`
(`partbuilder/errors.py` defines only `Partbuilder*` classes), not a
`CircularDependency`-style `PartbuilderError`. -/
theorem claim_C2_cycle_detection :
    sortParts [partSelf] = Except.error (PyErr.attributeError "SnapcraftLogicError") ∧
    "SnapcraftLogicError" ∉ errorsModuleClasses := by
  constructor
  · have h1 : sortDesc [partSelf] = [partSelf] := by decide
    have h2 : findTop [partSelf] = none := by decide
    rw [sortParts, h1, sortPartsLoop_err _ _ (by decide) h2]
    rfl
  · decide

/-- The deduplication loop at the end of `build_env_for_part`
(`_partbuilder.py:431-440`): walk the assembled entries keeping a `seen`
set, appending an entry only the first time it is seen. -/
def dedupSeen : List String → List String → List String
  | [], _ => []
  | e :: rest, seen =>
    if e ∈ seen then dedupSeen rest seen else e :: dedupSeen rest (e :: seen)

/-- `LifecycleManager.build_env_for_part` (`_partbuilder.py:396-440`).
The entry assembly (steps 1-6 of spec section 4.10) calls `part.env`,
`runtime_env`, `build_env`, `build_env_for_stage` and
`get_part_directory_environment`, which live in modules not included
under `src/` (`partbuilder/_env.py` and the pluginhandler package); the
assembled entry sequence is therefore taken as the argument, and this
definition embeds the final deduplication pass the function applies to
it before returning. -/
def build_env_for_part (assembled : List String) : List String :=
  dedupSeen assembled []

/-- Reference form of the claim's words: the sequence with every entry
after its first occurrence removed, first occurrences kept in order. -/
def removeLaterDuplicates : List String → List String
  | [] => []
  | a :: t => a :: removeLaterDuplicates (t.filter (fun x => x ≠ a))
termination_by l => l.length
decreasing_by
  have := List.length_filter_le (fun x => x ≠ a) t
  simp only [List.length_cons]
  omega

lemma removeLaterDuplicates_nil : removeLaterDuplicates [] = [] := by
  rw [removeLaterDuplicates]

lemma removeLaterDuplicates_cons (a : String) (t : List String) :
    removeLaterDuplicates (a :: t) =
      a :: removeLaterDuplicates (t.filter (fun x => x ≠ a)) := by
  rw [removeLaterDuplicates]

lemma dedupSeen_eq_removeLater :
    ∀ (l seen : List String),
      dedupSeen l seen = removeLaterDuplicates (l.filter (fun x => x ∉ seen)) := by
  intro l
  induction l with
  | nil => intro seen; simp [dedupSeen, removeLaterDuplicates_nil]
  | cons e rest ih =>
    intro seen
    by_cases he : e ∈ seen
    · rw [show dedupSeen (e :: rest) seen = dedupSeen rest seen from by
        simp [dedupSeen, he]]
      rw [ih seen]
      congr 1
      simp [List.filter_cons, he]
    · rw [show dedupSeen (e :: rest) seen = e :: dedupSeen rest (e :: seen) from by
        simp [dedupSeen, he]]
      rw [ih (e :: seen)]
      have hfe : (e :: rest).filter (fun x => x ∉ seen) =
          e :: rest.filter (fun x => x ∉ seen) := by
        simp [List.filter_cons, he]
      rw [hfe, removeLaterDuplicates_cons]
      congr 1
      rw [List.filter_filter]
      apply congrArg
      apply List.filter_congr
      intro x _
      by_cases hx1 : x = e <;> by_cases hx2 : x ∈ seen <;>
        simp [hx1, hx2, List.mem_cons]

lemma dedupSeen_nodup :
    ∀ (l seen : List String),
      (dedupSeen l seen).Nodup ∧ ∀ x ∈ dedupSeen l seen, x ∉ seen := by
  intro l
  induction l with
  | nil => intro seen; simp [dedupSeen]
  | cons e rest ih =>
    intro seen
    by_cases he : e ∈ seen
    · rw [show dedupSeen (e :: rest) seen = dedupSeen rest seen from by
        simp [dedupSeen, he]]
      exact ih seen
    · rw [show dedupSeen (e :: rest) seen = e :: dedupSeen rest (e :: seen) from by
        simp [dedupSeen, he]]
      rcases ih (e :: seen) with ⟨hnd, hnotin⟩
      constructor
      · rw [List.nodup_cons]
        refine ⟨fun hmem => ?_, hnd⟩
        exact hnotin e hmem (List.mem_cons_self e seen)
      · intro x hx
        rcases List.mem_cons.mp hx with rfl | hx'
        · exact he
        · intro hxs
          exact hnotin x hx' (List.mem_cons_of_mem e hxs)

/-- C8: for every assembled entry sequence, the environment list
`build_env_for_part` returns contains no duplicate entries and equals the
assembled sequence with every entry after its first occurrence removed
(first occurrences preserved, relative order unchanged). -/
theorem claim_C8_env_dedup (assembled : List String) :
    build_env_for_part assembled = removeLaterDuplicates assembled ∧
    (build_env_for_part assembled).Nodup := by
  constructor
  · rw [build_env_for_part, dedupSeen_eq_removeLater]
    congr 1
    simp
  · exact (dedupSeen_nodup assembled []).1

/-- A value of an architecture-translation entry: either a string or a
list of package names. -/
inductive ArchVal where
  | s (v : String)
  | l (vs : List String)
deriving DecidableEq

/-- `_ARCH_TRANSLATIONS` (`_partbuilder.py:39-109`), transcribed as an
association list of association lists with the exact keys of the source
dicts. -/
def _ARCH_TRANSLATIONS : List (String × List (String × ArchVal)) :=
  [("aarch64",
    [("kernel", ArchVal.s "arm64"),
     ("deb", ArchVal.s "arm64"),
     ("uts_machine", ArchVal.s "aarch64"),
     ("cross-compiler-prefix", ArchVal.s "aarch64-linux-gnu-"),
     ("cross-build-packages",
      ArchVal.l ["gcc-aarch64-linux-gnu", "libc6-dev-arm64-cross"]),
     ("triplet", ArchVal.s "aarch64-linux-gnu"),
     ("core-dynamic-linker", ArchVal.s "lib/ld-linux-aarch64.so.1")]),
   ("armv7l",
    [("kernel", ArchVal.s "arm"),
     ("deb", ArchVal.s "armhf"),
     ("uts_machine", ArchVal.s "arm"),
     ("cross-compiler-prefix", ArchVal.s "arm-linux-gnueabihf-"),
     ("cross-build-packages",
      ArchVal.l ["gcc-arm-linux-gnueabihf", "libc6-dev-armhf-cross"]),
     ("triplet", ArchVal.s "arm-linux-gnueabihf"),
     ("core-dynamic-linker", ArchVal.s "lib/ld-linux-armhf.so.3")]),
   ("i686",
    [("kernel", ArchVal.s "x86"),
     ("deb", ArchVal.s "i386"),
     ("uts_machine", ArchVal.s "i686"),
     ("triplet", ArchVal.s "i386-linux-gnu")]),
   ("ppc",
    [("kernel", ArchVal.s "powerpc"),
     ("deb", ArchVal.s "powerpc"),
     ("uts_machine", ArchVal.s "powerpc"),
     ("cross-compiler-prefix", ArchVal.s "powerpc-linux-gnu-"),
     ("cross-build-packages",
      ArchVal.l ["gcc-powerpc-linux-gnu", "libc6-dev-powerpc-cross"]),
     ("triplet", ArchVal.s "powerpc-linux-gnu")]),
   ("ppc64le",
    [("kernel", ArchVal.s "powerpc"),
     ("deb", ArchVal.s "ppc64el"),
     ("uts_machine", ArchVal.s "ppc64el"),
     ("cross-compiler-prefix", ArchVal.s "powerpc64le-linux-gnu-"),
     ("cross-build-packages",
      ArchVal.l ["gcc-powerpc64le-linux-gnu", "libc6-dev-ppc64el-cross"]),
     ("triplet", ArchVal.s "powerpc64le-linux-gnu"),
     ("core-dynamic-linker", ArchVal.s "lib64/ld64.so.2")]),
   ("riscv64",
    [("kernel", ArchVal.s "riscv64"),
     ("deb", ArchVal.s "riscv64"),
     ("uts_machine", ArchVal.s "riscv64"),
     ("cross-compiler-prefix", ArchVal.s "riscv64-linux-gnu-"),
     ("cross-build-packages",
      ArchVal.l ["gcc-riscv64-linux-gnu", "libc6-dev-riscv64-cross"]),
     ("triplet", ArchVal.s "riscv64-linux-gnu"),
     ("core-dynamic-linker", ArchVal.s "lib/ld-linux-riscv64-lp64d.so.1")]),
   ("s390x",
    [("kernel", ArchVal.s "s390"),
     ("deb", ArchVal.s "s390x"),
     ("uts_machine", ArchVal.s "s390x"),
     ("cross-compiler-prefix", ArchVal.s "s390x-linux-gnu-"),
     ("cross-build-packages",
      ArchVal.l ["gcc-s390x-linux-gnu", "libc6-dev-s390x-cross"]),
     ("triplet", ArchVal.s "s390x-linux-gnu"),
     ("core-dynamic-linker", ArchVal.s "lib/ld64.so.1")]),
   ("x86_64",
    [("kernel", ArchVal.s "x86"),
     ("deb", ArchVal.s "amd64"),
     ("uts_machine", ArchVal.s "x86_64"),
     ("triplet", ArchVal.s "x86_64-linux-gnu"),
     ("core-dynamic-linker", ArchVal.s "lib64/ld-linux-x86-64.so.2")])]

/-- The eight UTS machine names keyed by the table. -/
def utsNames : List String :=
  ["aarch64", "armv7l", "i686", "ppc", "ppc64le", "riscv64", "s390x", "x86_64"]

/-- The seven field names the claim requires each entry to contain. -/
def archFields : List String :=
  ["kernel", "deb", "uts_machine", "cross-compiler-prefix",
   "cross-build-packages", "triplet", "core-dynamic-linker"]

/-- Whether the translation entry for a machine name contains a field. -/
def entryHasField (machine key : String) : Bool :=
  match _ARCH_TRANSLATIONS.lookup machine with
  | some entry => (entry.lookup key).isSome
  | none => false

/-- Whether the translation entry for a machine name contains all seven
fields the claim lists. -/
def hasAllArchFields (machine : String) : Bool :=
  match _ARCH_TRANSLATIONS.lookup machine with
  | some entry => archFields.all (fun k => (entry.lookup k).isSome)
  | none => false

/-- C9 counterexample: the `i686` entry exists but contains neither
`cross-compiler-prefix`, nor `cross-build-packages`, nor
`core-dynamic-linker`, so the translation table does not map every one
of the eight UTS machine names to a record with all seven fields. -/
theorem claim_C9_counterexample :
    (_ARCH_TRANSLATIONS.lookup "i686").isSome = true ∧
    hasAllArchFields "i686" = false ∧
    ¬ (∀ m ∈ utsNames, hasAllArchFields m = true) := by
  decide

/-- C9 (amended): every one of the eight UTS machine names has a
translation entry with `kernel`, `deb`, `uts_machine` and `triplet`;
`cross-compiler-prefix` and `cross-build-packages` are present exactly
for the six names other than `i686` and `x86_64`; `core-dynamic-linker`
is present exactly for the six names other than `i686` and `ppc`. -/
theorem claim_C9_arch_table :
    (∀ m ∈ utsNames,
      entryHasField m "kernel" = true ∧ entryHasField m "deb" = true ∧
      entryHasField m "uts_machine" = true ∧ entryHasField m "triplet" = true) ∧
    (∀ m ∈ utsNames,
      (entryHasField m "cross-compiler-prefix" = true ∧
       entryHasField m "cross-build-packages" = true) ↔
      (m ≠ "i686" ∧ m ≠ "x86_64")) ∧
    (∀ m ∈ utsNames,
      entryHasField m "core-dynamic-linker" = true ↔
      (m ≠ "i686" ∧ m ≠ "ppc")) := by
  decide

/-- Outcome of constructing `ElfFile(path=...)` on a file that passed the
magic-number check.  `parsed needed` is a successful parse with the
`DT_NEEDED` names found; `elfError` models `pyelftools` raising
`ELFError` (propagates out of `ElfFile.__init__` uncaught); `corrupted`
models a `UnicodeDecodeError`/`AttributeError`/`ConstructError` during
`_extract_attributes`, which `ElfFile.__init__` catches and answers with
`raise errors.CorruptedElfFileError(path, exception)`
(`elf.py:299-304`). -/
inductive ParseOutcome where
  | parsed (needed : List String)
  | elfError
  | corrupted
deriving DecidableEq

/-- One entry of the `file_list` given to `get_elf_files`, together with
what the file system and the ELF parser say about it. -/
structure SrcFile where
  name : String
  isLink : Bool
  isRegular : Bool
  magicElf : Bool
  parse : ParseOutcome
deriving DecidableEq

/-- `ElfFile.is_elf` (`elf.py:271-277`): a regular file whose first four
bytes are the ELF magic. -/
def is_elf (f : SrcFile) : Bool := f.isRegular && f.magicElf

/-- The filter `part_file.endswith(".o")` (`elf.py:522`), embedded on
the character list of the name (Lean's own suffix test on `String` does
not evaluate in the kernel). -/
def endsWithDotO (s : String) : Bool :=
  match s.data.reverse with
  | 'o' :: '.' :: _ => true
  | _ => false

/-- A member of the frozen set `get_elf_files` returns: the joined path
and the `DT_NEEDED` entries of the parsed ELF file. -/
structure ElfRec where
  path : String
  needed : List String
deriving DecidableEq

/-- `get_elf_files` (`elf.py:511-549`).  Per file: skip names ending in
`.o`; skip symlinks; skip files without the ELF magic; on `ELFError`
skip silently; on a corrupted ELF the code evaluates
`errors.CorruptedElfFileError`, a name `partbuilder/errors.py` does not
define, so `AttributeError` propagates and aborts the whole scan; a
parsed file is kept only if its `DT_NEEDED` dictionary is non-empty. -/
def get_elf_files (root : String) : List SrcFile → Except PyErr (List ElfRec)
  | [] => Except.ok []
  | f :: rest =>
    if endsWithDotO f.name then get_elf_files root rest
    else if f.isLink then get_elf_files root rest
    else if is_elf f = false then get_elf_files root rest
    else
      match f.parse with
      | ParseOutcome.elfError => get_elf_files root rest
      | ParseOutcome.corrupted =>
        Except.error (pyRaise "CorruptedElfFileError" f.name)
      | ParseOutcome.parsed needed =>
        match get_elf_files root rest with
        | Except.error e => Except.error e
        | Except.ok l =>
          if needed = [] then Except.ok l
          else Except.ok ({ path := root ++ "/" ++ f.name, needed := needed } :: l)

/-- A well-formed dynamic executable with one `DT_NEEDED` entry. -/
def elfGood : SrcFile :=
  { name := "bin/tool", isLink := false, isRegular := true,
    magicElf := true, parse := ParseOutcome.parsed ["libc.so.6"] }

/-- A symbolic link (skipped before parsing). -/
def elfLink : SrcFile :=
  { name := "bin/link", isLink := true, isRegular := true,
    magicElf := true, parse := ParseOutcome.parsed ["libz.so.1"] }

/-- An object file (skipped by the name filter). -/
def elfObject : SrcFile :=
  { name := "lib/x.o", isLink := false, isRegular := true,
    magicElf := true, parse := ParseOutcome.parsed ["libz.so.1"] }

/-- A statically linked ELF binary: parses with no `DT_NEEDED` entry. -/
def elfStatic : SrcFile :=
  { name := "bin/static", isLink := false, isRegular := true,
    magicElf := true, parse := ParseOutcome.parsed [] }

/-- A regular non-ELF file. -/
def elfText : SrcFile :=
  { name := "README", isLink := false, isRegular := true,
    magicElf := false, parse := ParseOutcome.parsed ["x"] }

/-- A file with the ELF magic whose attribute extraction fails
(truncated/corrupted ELF). -/
def elfBroken : SrcFile :=
  { name := "bin/broken", isLink := false, isRegular := true,
    magicElf := true, parse := ParseOutcome.corrupted }

/-- C7: the ELF scan is not total.  On a file list containing one
corrupted ELF file the whole scan aborts with `AttributeError` for the
missing class `CorruptedElfFileError` (absent from
`partbuilder/errors.py`), instead of logging and skipping only that
file: even the record for the healthy file scanned before it is lost. -/
theorem claim_C7_scan_aborts :
    get_elf_files "prime" [elfGood, elfBroken] =
      Except.error (PyErr.attributeError "CorruptedElfFileError") ∧
    "CorruptedElfFileError" ∉ errorsModuleClasses ∧
    get_elf_files "prime" [elfGood] =
      Except.ok [{ path := "prime/bin/tool", needed := ["libc.so.6"] }] := by
  exact ⟨rfl, by decide, rfl⟩

/-- C10: whenever `get_elf_files` returns a set, every record in it has
at least one `DT_NEEDED` entry and comes from a file that is not a
symlink, does not end in `.o`, and is a regular file with the ELF magic
that parsed successfully. -/
theorem claim_C10_needed_nonempty (root : String) (files : List SrcFile)
    (l : List ElfRec) (h : get_elf_files root files = Except.ok l) :
    ∀ e ∈ l, e.needed ≠ [] ∧
      ∃ f ∈ files, f.isLink = false ∧ endsWithDotO f.name = false ∧
        is_elf f = true ∧ f.parse = ParseOutcome.parsed e.needed ∧
        e.path = root ++ "/" ++ f.name := by
  induction files generalizing l with
  | nil =>
    rw [get_elf_files] at h
    cases h
    intro e he
    exact absurd he (List.not_mem_nil e)
  | cons f rest ih =>
    rw [get_elf_files] at h
    by_cases h1 : endsWithDotO f.name
    · rw [if_pos h1] at h
      intro e he
      rcases ih l h e he with ⟨hne, g, hg, hrest⟩
      exact ⟨hne, g, List.mem_cons_of_mem f hg, hrest⟩
    · rw [if_neg h1] at h
      by_cases h2 : f.isLink
      · rw [if_pos h2] at h
        intro e he
        rcases ih l h e he with ⟨hne, g, hg, hrest⟩
        exact ⟨hne, g, List.mem_cons_of_mem f hg, hrest⟩
      · rw [if_neg h2] at h
        by_cases h3 : is_elf f = false
        · rw [if_pos h3] at h
          intro e he
          rcases ih l h e he with ⟨hne, g, hg, hrest⟩
          exact ⟨hne, g, List.mem_cons_of_mem f hg, hrest⟩
        · rw [if_neg h3] at h
          cases hp : f.parse with
          | elfError =>
            rw [hp] at h
            intro e he
            rcases ih l h e he with ⟨hne, g, hg, hrest⟩
            exact ⟨hne, g, List.mem_cons_of_mem f hg, hrest⟩
          | corrupted =>
            rw [hp] at h
            dsimp only at h
            exact Except.noConfusion h
          | parsed needed =>
            rw [hp] at h
            dsimp only at h
            cases hr : get_elf_files root rest with
            | error e0 =>
              rw [hr] at h
              exact Except.noConfusion h
            | ok l0 =>
              rw [hr] at h
              dsimp only at h
              by_cases hn : needed = []
              · rw [if_pos hn] at h
                injection h with hinj
                subst hinj
                intro e he
                rcases ih l0 hr e he with ⟨hne, g, hg, hrest⟩
                exact ⟨hne, g, List.mem_cons_of_mem f hg, hrest⟩
              · rw [if_neg hn] at h
                injection h with hinj
                subst hinj
                intro e he
                rcases List.mem_cons.mp he with rfl | he'
                · refine ⟨hn, f, List.mem_cons_self f rest, ?_, ?_, ?_, ?_, rfl⟩
                  · exact Bool.of_not_eq_true h2
                  · exact Bool.of_not_eq_true h1
                  · exact Bool.of_not_eq_false h3
                  · exact hp
                · rcases ih l0 hr e he' with ⟨hne, g, hg, hrest⟩
                  exact ⟨hne, g, List.mem_cons_of_mem f hg, hrest⟩

/-- C10 witness: the theorem applied to a concrete scan over a good
file, a symlink, an object file, a static binary and a text file; only
the good file is kept, and it satisfies all the listed properties. -/
theorem claim_C10_witness :
    ({ path := "prime/bin/tool", needed := ["libc.so.6"] } : ElfRec).needed ≠ [] ∧
    ∃ f ∈ [elfGood, elfLink, elfObject, elfStatic, elfText],
      f.isLink = false ∧ endsWithDotO f.name = false ∧
      is_elf f = true ∧
      f.parse = ParseOutcome.parsed
        ({ path := "prime/bin/tool", needed := ["libc.so.6"] } : ElfRec).needed ∧
      ({ path := "prime/bin/tool", needed := ["libc.so.6"] } : ElfRec).path =
        "prime" ++ "/" ++ f.name :=
  claim_C10_needed_nonempty "prime" [elfGood, elfLink, elfObject, elfStatic, elfText]
    [{ path := "prime/bin/tool", needed := ["libc.so.6"] }] rfl
    { path := "prime/bin/tool", needed := ["libc.so.6"] } (by decide)

/-- The names bound at module level in `src/partbuilder/common.py`:
its imported names (lines 19-28) and its own top-level definitions.
The module never imports `errors`. -/
def commonModuleNames : List String :=
  ["os", "logging", "urllib", "subprocess", "sys", "shlex", "tempfile",
   "Path", "Callable", "List", "Union", "_DEFAULT_SCHEMADIR", "_schemadir",
   "_DOCKERENV_FILE", "_PODMAN_FILE", "logger", "env", "assemble_env",
   "run_number", "_run", "run", "run_output", "get_library_paths",
   "get_url_scheme", "isurl", "reset_env", "get_schemadir", "is_snap",
   "is_process_container", "get_include_paths", "get_pkg_config_paths"]

/-- The exception path of `common._run` (`common.py:105-111`): the shell
script exits with `exit_code`; when it is nonzero the `runner` raises
`CalledProcessError` and the handler executes
`raise errors.SnapcraftCommandError(command=cmd_string, call_error=...)`.
The global name `errors` is resolved against the module namespace first
(not imported there, so `NameError`); were it importable, the attribute
`SnapcraftCommandError` would then be resolved against
`partbuilder/errors.py` (not defined there either). -/
def run_helper (command : String) (exit_code : Int) : Except PyErr Unit :=
  if exit_code = 0 then Except.ok ()
  else if "errors" ∈ commonModuleNames then
    (if "SnapcraftCommandError" ∈ errorsModuleClasses then
       Except.error (PyErr.commandError command exit_code)
     else Except.error (PyErr.attributeError "SnapcraftCommandError"))
  else Except.error (PyErr.nameError "errors")

/-- C6: a command run through `common._run` that exits nonzero does not
produce a `CommandError` carrying the command and exit code: the handler
references the unimported global `errors` (and the class name
`SnapcraftCommandError` does not exist in `partbuilder/errors.py`
either), so the interpreter raises `NameError` at the failing input
`false` with exit code 1; no state is written, since an exception
propagates either way. -/
theorem claim_C6_command_error :
    run_helper "false" 1 = Except.error (PyErr.nameError "errors") ∧
    "errors" ∉ commonModuleNames ∧
    "SnapcraftCommandError" ∉ errorsModuleClasses ∧
    run_helper "true" 0 = Except.ok () := by
  exact ⟨rfl, by decide, by decide, rfl⟩

/-- Modelled from the spec: the `partbuilder.steps` module is part of
this repository but not included under `src/` (only its importers are).
Spec section 3 defines Step as the total order
`Pull(0) < Build(1) < Stage(2) < Prime(3)` with `previous_steps()`,
`next_steps()` and `clean_if_dirty` (Pull false, Build/Stage/Prime
true). -/
inductive Step where
  | PULL
  | BUILD
  | STAGE
  | PRIME
deriving DecidableEq

/-- Position of a step in the total order. -/
def Step.idx : Step → Nat
  | Step.PULL => 0
  | Step.BUILD => 1
  | Step.STAGE => 2
  | Step.PRIME => 3

/-- The lowercase step name used for state files, method dispatch
(`_run_{}`/`_re{}`) and log messages. -/
def Step.name : Step → String
  | Step.PULL => "pull"
  | Step.BUILD => "build"
  | Step.STAGE => "stage"
  | Step.PRIME => "prime"

/-- All steps in lifecycle order. -/
def allSteps : List Step := [Step.PULL, Step.BUILD, Step.STAGE, Step.PRIME]

/-- Modelled from the spec: `previous_steps()` of the steps module. -/
def Step.previous_steps (s : Step) : List Step :=
  allSteps.filter (fun t => t.idx < s.idx)

/-- Modelled from the spec: `next_steps()` of the steps module. -/
def Step.next_steps (s : Step) : List Step :=
  allSteps.filter (fun t => s.idx < t.idx)

/-- Modelled from the spec: `clean_if_dirty` (Pull false, others true). -/
def Step.clean_if_dirty : Step → Bool
  | Step.PULL => false
  | _ => true

/-- The step sequence `step.previous_steps() + [step]` iterated by
`_Executor.run` (`lifecycle/_runner.py:208`). -/
def stepSequence (s : Step) : List Step := s.previous_steps ++ [s]

/-- `OutdatedStepAction` (`lifecycle/_runner.py:37-41`). -/
inductive OutdatedStepAction where
  | ERROR
  | CLEAN
deriving DecidableEq

/-- What the executor knows about one (part, step) pair, abstracting the
`StatusCache` queries made by `_handle_step` (the `_status_cache` module
is not under `src/`): whether state exists (`has_step_run`), the dirty
report summary, the outdated report summary, and whether the plugin has
an `update_<step>` method. -/
structure StepStatus where
  hasRun : Bool
  dirtyReport : Option String
  outdatedReport : Option String
  hasUpdate : Bool
deriving DecidableEq

/-- Observable actions of a lifecycle run. -/
inductive Event where
  | hook (id : Nat)
  | body (part : String) (step : Step) (hint : String)
  | update (part : String) (step : Step)
  | clean (part : String) (step : Step) (cleared : List Step)
  | skip (progress : String) (part : String) (hint : String)
deriving DecidableEq

/-- `register_pre_step_callback` (`_partbuilder.py:519-521`): appends the
callback to the flat module-level `_pre_hooks` list.  Callbacks are
identified by numeric ids. -/
def register_pre_step_callback (hooks : List Nat) (f : Nat) : List Nat :=
  hooks ++ [f]

/-- `register_post_step_callback` (`_partbuilder.py:524-527`): appends to
the flat module-level `_post_hooks` list. -/
def register_post_step_callback (hooks : List Nat) (f : Nat) : List Nat :=
  hooks ++ [f]

/-- Python semantics of subscripting a `list` with a `str` key: always
`TypeError`.  `_handle_step` (`lifecycle/_runner.py:228`) and
`_run_hooks` (`lifecycle/_runner.py:426`) index the flat callback lists
with `step.name`. -/
def listSubscriptStr (l : List Nat) (key : String) : Except PyErr (List Nat) :=
  Except.error (PyErr.typeError "list indices must be integers or slices, not str")

/-- Result of `_handle_dirty`'s policy logic. -/
inductive DirtyOutcome where
  | rerun (s : Step) (hint : String)
  | raiseErr (e : PyErr)
deriving DecidableEq

/-- Lines 386-393 of `lifecycle/_runner.py` given a policy value:
`StepOutdatedError` is raised only when the step's `clean_if_dirty` flag
is false *and* the action is `ERROR` (and even then the class is missing
from `partbuilder/errors.py`); otherwise `_re<step>` is invoked with the
parenthesised report summary as hint. -/
def handle_dirty_action (a : OutdatedStepAction) (s : Step) (summary : String) :
    DirtyOutcome :=
  if s.clean_if_dirty = false ∧ a = OutdatedStepAction.ERROR then
    DirtyOutcome.raiseErr (pyRaise "StepOutdatedError" summary)
  else DirtyOutcome.rerun s ("(" ++ summary ++ ")")

/-- `_handle_dirty` (`lifecycle/_runner.py:384-394`): the action is
hardcoded to `CLEAN` at line 385 (the `cli_config` consultation is
commented out). -/
def handle_dirty (s : Step) (summary : String) : DirtyOutcome :=
  handle_dirty_action OutdatedStepAction.CLEAN s summary

/-- The events of `_rerun_step` (`lifecycle/_runner.py:366-378`):
`part.clean(staged, primed, step)` removes the contribution for the step
and the state for it and later steps, the cache for `[step] +
step.next_steps()` is cleared, then `_run_step` runs the step body with
the hint. -/
def rerunEvents (partName : String) (s : Step) (hint : String) : List Event :=
  [Event.clean partName s (s :: s.next_steps), Event.body partName s hint]

/-- `_Executor._handle_step` (`lifecycle/_runner.py:218-273`) for one
part and one current step.  Branches in source order: (fresh) state
absent — the SPIKE print at line 228 already subscripts the flat
`_pre_hooks` list with `current_step.name`, and `_run_hooks` at lines
229/231 does the same, so this path raises `TypeError` before invoking
any callback; (explicit) re-run when the step is the requested one and
the part was named; (dirty) clean and re-run; (outdated) update in place
when the plugin can, else clean and re-run (`_handle_outdated` also
hardcodes `CLEAN`); else skip with the `already ran` notification. -/
def handle_step (pre post : List Nat) (requested : List String)
    (partName : String) (requestedStep currentStep : Step)
    (st : StepStatus) : Except PyErr (List Event × Bool) :=
  if st.hasRun = false then
    match listSubscriptStr pre currentStep.name with
    | Except.error e => Except.error e
    | Except.ok preHooks =>
      match listSubscriptStr post currentStep.name with
      | Except.error e => Except.error e
      | Except.ok postHooks =>
        Except.ok (preHooks.map Event.hook ++
          [Event.body partName currentStep ""] ++
          postHooks.map Event.hook, true)
  else if requested ≠ [] ∧ currentStep = requestedStep ∧ partName ∈ requested then
    Except.ok (rerunEvents partName currentStep "", true)
  else
    match st.dirtyReport with
    | some summary =>
      match handle_dirty currentStep summary with
      | DirtyOutcome.rerun s hint => Except.ok (rerunEvents partName s hint, true)
      | DirtyOutcome.raiseErr e => Except.error e
    | none =>
      match st.outdatedReport with
      | some summary =>
        if st.hasUpdate then Except.ok ([Event.update partName currentStep], true)
        else Except.ok (rerunEvents partName currentStep ("(" ++ summary ++ ")"), true)
      | none =>
        Except.ok ([Event.skip ("Skipping " ++ currentStep.name) partName
          "(already ran)"], false)

/-- The inner `for part in parts:` loop of `_Executor.run`
(`lifecycle/_runner.py:213-214`), collecting events and whether any
`_complete_step` set `steps_were_run`. -/
def runPartsLoop (pre post : List Nat) (requested : List String)
    (requestedStep currentStep : Step) (status : String → Step → StepStatus) :
    List String → Except PyErr (List Event × Bool)
  | [] => Except.ok ([], false)
  | p :: rest =>
    match handle_step pre post requested p requestedStep currentStep
        (status p currentStep) with
    | Except.error e => Except.error e
    | Except.ok (evs, ran) =>
      match runPartsLoop pre post requested requestedStep currentStep status rest with
      | Except.error e => Except.error e
      | Except.ok (evs2, ran2) => Except.ok (evs ++ evs2, ran || ran2)

/-- The outer `for current_step in step.previous_steps() + [step]:` loop
of `_Executor.run` (`lifecycle/_runner.py:208-214`). -/
def runStepsLoop (pre post : List Nat) (requested : List String)
    (requestedStep : Step) (status : String → Step → StepStatus)
    (parts : List String) : List Step → Except PyErr (List Event × Bool)
  | [] => Except.ok ([], false)
  | cs :: rest =>
    match runPartsLoop pre post requested requestedStep cs status parts with
    | Except.error e => Except.error e
    | Except.ok (evs, ran) =>
      match runStepsLoop pre post requested requestedStep status parts rest with
      | Except.error e => Except.error e
      | Except.ok (evs2, ran2) => Except.ok (evs ++ evs2, ran || ran2)

/-- `_Executor.run(step, part_names)` (`lifecycle/_runner.py:187-216`)
with `part_names = None` modelled as the empty requested list; the
final Boolean is the executor's `steps_were_run` flag consulted by
`execute` (`lifecycle/_runner.py:151`). -/
def executorRun (pre post : List Nat) (parts : List String)
    (status : String → Step → StepStatus) (requestedStep : Step)
    (requested : List String) : Except PyErr (List Event × Bool) :=
  runStepsLoop pre post requested requestedStep status parts
    (stepSequence requestedStep)

lemma handle_step_skip (pre post : List Nat) (p : String) (rs cs : Step)
    (st : StepStatus) (h1 : st.hasRun = true) (h2 : st.dirtyReport = none)
    (h3 : st.outdatedReport = none) :
    handle_step pre post [] p rs cs st =
      Except.ok ([Event.skip ("Skipping " ++ cs.name) p "(already ran)"], false) := by
  rw [handle_step]
  simp [h1, h2, h3]

lemma runPartsLoop_skip (pre post : List Nat) (rs cs : Step)
    (status : String → Step → StepStatus) :
    ∀ parts : List String,
      (∀ p ∈ parts, (status p cs).hasRun = true ∧
        (status p cs).dirtyReport = none ∧ (status p cs).outdatedReport = none) →
      runPartsLoop pre post [] rs cs status parts =
        Except.ok (parts.map
          (fun p => Event.skip ("Skipping " ++ cs.name) p "(already ran)"), false) := by
  intro parts
  induction parts with
  | nil => intro _; rw [runPartsLoop]; rfl
  | cons p rest ih =>
    intro h
    rcases h p (List.mem_cons_self p rest) with ⟨h1, h2, h3⟩
    rw [runPartsLoop, handle_step_skip pre post p rs cs _ h1 h2 h3,
      ih (fun q hq => h q (List.mem_cons_of_mem p hq))]
    rfl

lemma runStepsLoop_skip (pre post : List Nat) (rs : Step)
    (status : String → Step → StepStatus) (parts : List String)
    (h : ∀ p ∈ parts, ∀ cs : Step, (status p cs).hasRun = true ∧
      (status p cs).dirtyReport = none ∧ (status p cs).outdatedReport = none) :
    ∀ stepsList : List Step,
      runStepsLoop pre post [] rs status parts stepsList =
        Except.ok ((stepsList.map (fun cs => parts.map
          (fun p => Event.skip ("Skipping " ++ cs.name) p "(already ran)"))).flatten,
          false) := by
  intro stepsList
  induction stepsList with
  | nil => rw [runStepsLoop]; rfl
  | cons cs rest ih =>
    rw [runStepsLoop,
      runPartsLoop_skip pre post rs cs status parts
        (fun p hp => (h p hp cs)), ih]
    rfl

/-- C3: when every (part, step) pair has state that is neither dirty nor
outdated (and no parts were explicitly named), a run of any requested
step executes no step bodies: each `_handle_step` call only emits the
`Skipping <step> <part> (already ran)` notification, and the run
finishes with `steps_were_run = false`. -/
theorem claim_C3_second_run_skips (pre post : List Nat) (parts : List String)
    (status : String → Step → StepStatus) (s : Step)
    (h : ∀ p ∈ parts, ∀ cs : Step, (status p cs).hasRun = true ∧
      (status p cs).dirtyReport = none ∧ (status p cs).outdatedReport = none) :
    executorRun pre post parts status s [] =
      Except.ok (((stepSequence s).map (fun cs => parts.map
        (fun p => Event.skip ("Skipping " ++ cs.name) p "(already ran)"))).flatten,
        false) :=
  runStepsLoop_skip pre post s status parts h (stepSequence s)

/-- C3 witness: a second `prime` run over one part whose four steps all
have clean state emits exactly the four skip notifications and reports
`steps_were_run = false`. -/
theorem claim_C3_witness :
    executorRun [] [] ["a"]
      (fun _ _ => { hasRun := true, dirtyReport := none,
                    outdatedReport := none, hasUpdate := false })
      Step.PRIME [] =
      Except.ok ([Event.skip "Skipping pull" "a" "(already ran)",
                  Event.skip "Skipping build" "a" "(already ran)",
                  Event.skip "Skipping stage" "a" "(already ran)",
                  Event.skip "Skipping prime" "a" "(already ran)"], false) := by
  rw [claim_C3_second_run_skips [] [] ["a"]
    (fun _ _ => { hasRun := true, dirtyReport := none,
                  outdatedReport := none, hasUpdate := false })
    Step.PRIME (fun p _ cs => ⟨rfl, rfl, rfl⟩)]
  rfl

/-- C4 counterexample: for a dirty `build` step, even under the `ERROR`
policy the executor re-runs instead of raising `StepOutdated` (the raise
is guarded by `not step.clean_if_dirty`, false for build/stage/prime);
moreover `StepOutdatedError` does not exist in `partbuilder/errors.py`,
and `_handle_dirty` hardcodes the `CLEAN` action anyway. -/
theorem claim_C4_counterexample :
    handle_dirty_action OutdatedStepAction.ERROR Step.BUILD "changed" =
      DirtyOutcome.rerun Step.BUILD "(changed)" ∧
    "StepOutdatedError" ∉ errorsModuleClasses ∧
    handle_dirty Step.BUILD "changed" =
      DirtyOutcome.rerun Step.BUILD "(changed)" := by
  exact ⟨rfl, by decide, rfl⟩

/-- C4 (amended): for every dirty (part, step) the executor — whose
dirty action is hardcoded to `CLEAN` — cleans that step and all later
steps of the part and re-runs it with the parenthesised report summary
as hint; under the `ERROR` policy the `StepOutdated` raise would happen
only for steps whose `clean_if_dirty` flag is false (only Pull), and the
class it names is missing from `partbuilder/errors.py`. -/
theorem claim_C4_dirty_handling (s : Step) (summary : String) :
    handle_dirty s summary = DirtyOutcome.rerun s ("(" ++ summary ++ ")") ∧
    handle_dirty_action OutdatedStepAction.ERROR s summary =
      (if s.clean_if_dirty then DirtyOutcome.rerun s ("(" ++ summary ++ ")")
       else DirtyOutcome.raiseErr (pyRaise "StepOutdatedError" summary)) ∧
    handle_step [] [] [] "p" s s
      { hasRun := true, dirtyReport := some summary,
        outdatedReport := none, hasUpdate := false } =
      Except.ok ([Event.clean "p" s (s :: s.next_steps),
                  Event.body "p" s ("(" ++ summary ++ ")")], true) := by
  refine ⟨?_, ?_, ?_⟩ <;> cases s <;>
    simp [handle_dirty, handle_dirty_action, handle_step, rerunEvents,
      Step.clean_if_dirty]

/-- C5: the claim describes callbacks running in registration order
around the plugin body, but the registration functions append to flat
lists while `_handle_step`/`_run_hooks` index those lists with the step
name string, so the first cache-miss step run raises `TypeError` before
any callback or step body executes. -/
theorem claim_C5_hooks_type_error :
    register_pre_step_callback [] 7 = [7] ∧
    register_post_step_callback (register_post_step_callback [] 8) 9 = [8, 9] ∧
    handle_step (register_pre_step_callback [] 7)
      (register_post_step_callback [] 8) [] "a" Step.PULL Step.PULL
      { hasRun := false, dirtyReport := none,
        outdatedReport := none, hasUpdate := false } =
      Except.error (PyErr.typeError
        "list indices must be integers or slices, not str") := by
  exact ⟨rfl, rfl, rfl⟩

end Partbuilder
